import Mathlib

/-!
Shallow embedding of the ghostWriter WASAPI loopback capture-and-encode
pipeline (`audio_capture.cpp` / `audio_capture.h` / `wasapi_loopback.cpp`).

Modelling conventions:
* C `double`/`float` arithmetic is embedded as exact rational arithmetic (`ℚ`);
  the spec itself describes the resampling ratio as real-valued.
* C integer casts that truncate toward zero are modelled with `Int.tdiv`
  (for `ℤ`) and `ratTrunc` (for `ℚ → ℤ`).
* Raw device buffers are lists of bytes (`ℕ`, each < 256); sample buffers are
  lists of `ℤ` holding int16 values.
* Fallible I/O (file open) is an explicit boolean input to the model.
-/

namespace GW

/-- Truncation toward zero of a rational, the behavior of a C cast from a
floating-point value to an integer type (used by `(int16_t)(...)` casts). -/
def ratTrunc (q : ℚ) : ℤ :=
if q < 0 then -⌊-q⌋ else ⌊q⌋

/-- The sequential clamp from `AudioCapture::CaptureThread`
(audio_capture.cpp lines 207-208):
`if (sample > 1.0f) sample = 1.0f; if (sample < -1.0f) sample = -1.0f;`. -/
def clampSample (x : ℚ) : ℚ :=
let x1 := if x > 1 then 1 else x
if x1 < -1 then -1 else x1

/-- The float→int16 conversion of one sample
(audio_capture.cpp line 209): `samples[i] = (int16_t)(sample * 32767.0f);`
after the clamp. -/
def normalizeSample (x : ℚ) : ℤ :=
ratTrunc (clampSample x * 32767)

/-- Modelled from the spec: `clamp_and_scale` — clamp the input to
[-1.0, 1.0], scale by 32767.0, truncate to a 16-bit signed integer
(spec §8 "Normalization round-trip"). -/
def clamp_and_scale (x : ℚ) : ℤ :=
ratTrunc (max (-1) (min 1 x) * 32767)

/-- Stereo→mono downmix from `WasapiLoopback::SaveToWav`
(wasapi_loopback.cpp lines 148-159).  For `sourceChannels == 2` each output
sample is `(int16_t)((left + right) / 2)` with `left`/`right` widened to
`int32_t`; C `int32_t` division truncates toward zero (`Int.tdiv`).  Any
other channel count passes the samples through unchanged. -/
def downmix (sourceChannels : ℕ) (samples : List ℤ) : List ℤ :=
if sourceChannels = 2 then
  (List.range (samples.length / 2)).map (fun i =>
    Int.tdiv (samples.getD (2 * i) 0 + samples.getD (2 * i + 1) 0) 2)
else samples

/-- Linear-interpolation resampler from `WasapiLoopback::SaveToWav`
(wasapi_loopback.cpp lines 161-185).  `ratio = sourceRate / targetRate` in
floating point (embedded as `ℚ`); `newSize = (size_t)(size / ratio)` and
`srcIndexInt = (size_t)srcIndex` are casts of non-negative values, i.e.
floors; the interpolated value is stored through an `(int16_t)` cast,
i.e. truncated toward zero. -/
def resample (sourceRate targetRate : ℕ) (mono : List ℤ) : List ℤ :=
if sourceRate ≠ targetRate then
  let ratio : ℚ := (sourceRate : ℚ) / (targetRate : ℚ)
  let newSize : ℕ := (⌊(mono.length : ℚ) / ratio⌋).toNat
  (List.range newSize).map (fun (i : ℕ) =>
    let srcIndex : ℚ := (i : ℚ) * ratio
    let srcIndexInt : ℕ := (⌊srcIndex⌋).toNat
    let frac : ℚ := srcIndex - (srcIndexInt : ℚ)
    if srcIndexInt + 1 < mono.length then
      ratTrunc ((mono.getD srcIndexInt 0 : ℚ) * (1 - frac)
        + (mono.getD (srcIndexInt + 1) 0 : ℚ) * frac)
    else mono.getD srcIndexInt 0)
else mono

/-- Little-endian bytes of a 16-bit unsigned value, as `file.write((char*)&v, 2)`
lays them out. -/
def u16le (v : ℕ) : List ℕ :=
[v % 256, v / 256 % 256]

/-- Little-endian bytes of a 32-bit unsigned value, as `file.write((char*)&v, 4)`
lays them out. -/
def u32le (v : ℕ) : List ℕ :=
[v % 256, v / 256 % 256, v / 65536 % 256, v / 16777216 % 256]

/-- Little-endian bytes of one stored `int16_t` sample (two's complement). -/
def i16le (v : ℤ) : List ℕ :=
u16le (v % 65536).toNat

/-- The byte stream written by the WAV-serialization part of
`WasapiLoopback::SaveToWav` (wasapi_loopback.cpp lines 193-222):
44-byte RIFF/WAVE header followed by the raw little-endian samples.
The header fields are `uint32_t`/`uint16_t`, hence the `% 2^32` wrapping. -/
def wavBytes (targetSampleRate : ℕ) (samples : List ℤ) : List ℕ :=
let dataSize : ℕ := samples.length * 2 % 2 ^ 32
let fileSize : ℕ := (36 + dataSize) % 2 ^ 32
let sampleRate : ℕ := targetSampleRate % 2 ^ 32
let byteRate : ℕ := sampleRate * 1 * 2 % 2 ^ 32
[82, 73, 70, 70] ++ u32le fileSize ++ [87, 65, 86, 69]
  ++ [102, 109, 116, 32] ++ u32le 16 ++ u16le 1 ++ u16le 1
  ++ u32le sampleRate ++ u32le byteRate ++ u16le 2 ++ u16le 16
  ++ [100, 97, 116, 97] ++ u32le dataSize ++ (samples.map i16le).flatten

/-- Little-endian decoding of a byte list back to an unsigned number
(used to state what the serialized header fields hold). -/
def decodeLEn (bs : List ℕ) : ℕ :=
bs.foldr (fun b acc => b + 256 * acc) 0

/-- Modelled from the spec: the WAV header layout the spec promises for an
export of `n` samples at target rate `r` (spec §4.4 step 4 and §8 "WAV
header exactness") — a 44-byte header whose little-endian fields hold
`fileSize = 36 + 2n`, fmt sub-chunk size 16, audioFormat 1, numChannels 1,
sampleRate `r`, byteRate `2r`, blockAlign 2, bitsPerSample 16, and data
sub-chunk size `2n`. -/
def wavHeaderSpec (w : List ℕ) (n r : ℕ) : Prop :=
w.length = 44 + 2 * n ∧
w.take 4 = [82, 73, 70, 70] ∧
decodeLEn ((w.drop 4).take 4) = 36 + 2 * n ∧
(w.drop 8).take 4 = [87, 65, 86, 69] ∧
(w.drop 12).take 4 = [102, 109, 116, 32] ∧
decodeLEn ((w.drop 16).take 4) = 16 ∧
decodeLEn ((w.drop 20).take 2) = 1 ∧
decodeLEn ((w.drop 22).take 2) = 1 ∧
decodeLEn ((w.drop 24).take 4) = r ∧
decodeLEn ((w.drop 28).take 4) = r * 2 ∧
decodeLEn ((w.drop 32).take 2) = 2 ∧
decodeLEn ((w.drop 34).take 2) = 16 ∧
(w.drop 36).take 4 = [100, 97, 116, 97] ∧
decodeLEn ((w.drop 40).take 4) = 2 * n

/-- IEEE 754 binary32 value of four little-endian bytes, as the
`(float*)data` reinterpretation in `AudioCapture::CaptureThread` reads it.
Exponent-255 payloads (infinities/NaNs) are mapped to the out-of-range
sentinel ±2, which the clamp sends to ±1; no claim exercises them. -/
def decodeF32 (b0 b1 b2 b3 : ℕ) : ℚ :=
let bits : ℕ := b0 % 256 + b1 % 256 * 256 + b2 % 256 * 65536 + b3 % 256 * 16777216
let sign : ℕ := bits / 2 ^ 31
let expo : ℕ := bits / 2 ^ 23 % 256
let mant : ℕ := bits % 2 ^ 23
let mag : ℚ :=
  if expo = 0 then (mant : ℚ) / 2 ^ 149
  else if expo = 255 then 2
  else ((2 ^ 23 + mant : ℕ) : ℚ) * 2 ^ expo / 2 ^ 150
if sign = 1 then -mag else mag

/-- Successive 32-bit floats of a raw byte buffer (little-endian). -/
def decodeF32LE : List ℕ → List ℚ
| b0 :: b1 :: b2 :: b3 :: rest => decodeF32 b0 b1 b2 b3 :: decodeF32LE rest
| _ => []

/-- Two's-complement `int16_t` value of two little-endian bytes, as the
`(int16_t*)data` reinterpretation reads it. -/
def decodeI16 (b0 b1 : ℕ) : ℤ :=
let u : ℕ := b0 % 256 + b1 % 256 * 256
if u < 32768 then (u : ℤ) else (u : ℤ) - 65536

/-- Successive `int16_t` samples of a raw byte buffer (little-endian). -/
def decodeI16LE : List ℕ → List ℤ
| b0 :: b1 :: rest => decodeI16 b0 b1 :: decodeI16LE rest
| _ => []

/-- WAVEFORMATEX tag for plain 32-bit IEEE float streams. -/
def WAVE_FORMAT_IEEE_FLOAT : ℕ := 3

/-- WAVEFORMATEX tag for extensible streams (sub-format carried in a
separate descriptor field). -/
def WAVE_FORMAT_EXTENSIBLE : ℕ := 65534

/-- The fields of the session's `WAVEFORMATEX`/`WAVEFORMATEXTENSIBLE`
descriptor that are relevant to normalization.  `subFormat` stands for the
resolved sub-format of an extensible descriptor; the code never reads it. -/
structure WaveFormat where
  formatTag : ℕ
  bitsPerSample : ℕ
  subFormat : ℕ
deriving DecidableEq

/-- The sample-format dispatch and conversion of one packet's raw bytes
(audio_capture.cpp lines 194-216).  The float branch is taken when
`wFormatTag == WAVE_FORMAT_IEEE_FLOAT || wFormatTag == WAVE_FORMAT_EXTENSIBLE`;
otherwise `wBitsPerSample == 16` data is copied verbatim; any other format
leaves `samples` empty.  The loop reads `numFramesAvailable * m_channels`
samples from the device buffer, which holds exactly that many. -/
def convertSamples (fmt : WaveFormat) (channels numFrames : ℕ) (raw : List ℕ) : List ℤ :=
if fmt.formatTag = WAVE_FORMAT_IEEE_FLOAT ∨ fmt.formatTag = WAVE_FORMAT_EXTENSIBLE then
  ((decodeF32LE raw).take (numFrames * channels)).map normalizeSample
else if fmt.bitsPerSample = 16 then
  (decodeI16LE raw).take (numFrames * channels)
else []

/-- One packet handed over by `IAudioCaptureClient::GetBuffer`:
frame count, raw bytes, and the `AUDCLNT_BUFFERFLAGS_SILENT` flag. -/
structure Packet where
  frameCount : ℕ
  rawBytes : List ℕ
  silent : Bool
deriving DecidableEq

/-- Processing of one retrieved packet by the capture loop
(audio_capture.cpp lines 192-221): when frames are available, convert the
raw bytes, and append the result to the accumulation buffer through the
callback unless the result is empty or the packet is silence-flagged.
(`m_callback` is always set while the loop runs: `Start` installs it before
spawning the thread.) -/
def processPacket (fmt : WaveFormat) (channels : ℕ) (buffer : List ℤ) (p : Packet) : List ℤ :=
if p.frameCount > 0 then
  let samples := convertSamples fmt channels p.frameCount p.rawBytes
  if samples ≠ [] ∧ p.silent = false then buffer ++ samples else buffer
else buffer

/-- Result of one `IAudioCaptureClient::GetNextPacketSize` call. -/
inductive PollResult where
| ok (packetLength : ℕ)
| fail
deriving DecidableEq

/-- Result of one `IAudioCaptureClient::GetBuffer` call. -/
inductive BufResult where
| ok (p : Packet)
| fail
deriving DecidableEq

/-- State owned by the capture thread's environment: the accumulation
buffer reached through `m_callback`, and `m_lastError`. -/
structure CapState where
  buffer : List ℤ
  lastError : String
deriving DecidableEq

/-- The inner draining loop of `AudioCapture::CaptureThread`
(audio_capture.cpp lines 174-236), `while (packetLength != 0)`.
The session collaborator is a script of responses: one `BufResult` per
`GetBuffer` call, one `Bool` per `ReleaseBuffer` call, one `PollResult` per
in-loop `GetNextPacketSize` call.  Any `FAILED(hr)` response — and, in the
model, script exhaustion — is the corresponding `break`, which abandons the
drain cycle but not the thread.  Returns the new state and the unconsumed
scripts. -/
def drainLoop (fmt : WaveFormat) (channels : ℕ) :
    List BufResult → CapState → ℕ → List PollResult → List Bool →
    CapState × List PollResult × List BufResult × List Bool
| gbs, st, 0, npss, rbs => (st, npss, gbs, rbs)
| [], st, _ + 1, npss, rbs => (st, npss, [], rbs)
| BufResult.fail :: grest, st, _ + 1, npss, rbs => (st, npss, grest, rbs)
| BufResult.ok p :: grest, st, _ + 1, npss, rbs =>
  let st1 : CapState := { st with buffer := processPacket fmt channels st.buffer p }
  match rbs with
  | [] => (st1, npss, grest, [])
  | false :: rrest => (st1, npss, grest, rrest)
  | true :: rrest =>
    match npss with
    | [] => (st1, [], grest, rrest)
    | PollResult.fail :: nrest => (st1, nrest, grest, rrest)
    | PollResult.ok pl1 :: nrest => drainLoop fmt channels grest st1 pl1 nrest rrest

/-- The outer polling loop of `AudioCapture::CaptureThread`
(audio_capture.cpp lines 166-240), `while (m_isCapturing)`.  `fuel` counts
the outer iterations until a concurrent `Stop` clears `m_isCapturing`.
Each iteration polls `GetNextPacketSize`; a failure (or script exhaustion)
is the outer `break`, ending the thread.  Otherwise the drain cycle runs,
then the thread sleeps (~10ms) and polls again. -/
def captureLoop (fmt : WaveFormat) (channels : ℕ) :
    ℕ → CapState → List PollResult → List BufResult → List Bool → CapState
| 0, st, _, _, _ => st
| _ + 1, st, [], _, _ => st
| _ + 1, st, PollResult.fail :: _, _, _ => st
| fuel + 1, st, PollResult.ok pl :: nrest, gbs, rbs =>
  match drainLoop fmt channels gbs st pl nrest rbs with
  | (st1, nrest1, gbs1, rbs1) => captureLoop fmt channels fuel st1 nrest1 gbs1 rbs1

/-- The `AudioCapture` state visible to `Start`/`Stop`/accessors:
`m_isCapturing`, whether `m_audioClient` is non-null, and `m_lastError`. -/
structure AudioCaptureState where
  isCapturing : Bool
  initialized : Bool
  lastError : String
deriving DecidableEq

/-- `AudioCapture::Start` (audio_capture.cpp lines 120-146) without the
thread spawn: rejects when already capturing or not initialized; otherwise
sets `m_isCapturing` and starts the audio client, rolling `m_isCapturing`
back if `IAudioClient::Start` fails (`clientStartOk` is that call's
outcome).  Returns the new state and the boolean result. -/
def audioCaptureStart (ac : AudioCaptureState) (clientStartOk : Bool) :
    AudioCaptureState × Bool :=
if ac.isCapturing then ({ ac with lastError := "Already capturing" }, false)
else if ac.initialized = false then
  ({ ac with lastError := "Audio client not initialized" }, false)
else if clientStartOk = false then
  ({ ac with lastError := "Failed to start audio client", isCapturing := false }, false)
else ({ ac with isCapturing := true }, true)

/-- State of the `WasapiLoopback` wrapper object: the accumulation buffer
`m_audioBuffer` and the tags `m_capturedSampleRate`/`m_capturedChannels`. -/
structure LoopbackState where
  audioBuffer : List ℤ
  capturedSampleRate : ℕ
  capturedChannels : ℕ
deriving DecidableEq

/-- `WasapiLoopback::Start` (wasapi_loopback.cpp lines 71-89): clears
`m_audioBuffer` under the lock, then calls `AudioCapture::Start`.
Returns the wrapper state, the capture state, and the boolean result. -/
def wasapiStart (st : LoopbackState) (ac : AudioCaptureState) (clientStartOk : Bool) :
    LoopbackState × AudioCaptureState × Bool :=
let st1 : LoopbackState := { st with audioBuffer := [] }
let r := audioCaptureStart ac clientStartOk
(st1, r.1, r.2)

/-- `WasapiLoopback::SaveToWav` (wasapi_loopback.cpp lines 117-226) as a
state transformer.  Under the lock the buffer and tags are copied and
`m_audioBuffer` is cleared; an empty snapshot returns `false`
(`NothingCaptured`); otherwise the snapshot is downmixed, resampled, and
serialized.  `openOk` is the outcome of opening the destination file; when
it is `false` the function returns `false` (`WriteFailure`) and writes
nothing.  Returns the new wrapper state, the boolean result, and the bytes
written (if any). -/
def saveToWav (st : LoopbackState) (targetSampleRate : ℕ) (openOk : Bool) :
    LoopbackState × Bool × Option (List ℕ) :=
let samples := st.audioBuffer
let sourceSampleRate := st.capturedSampleRate
let sourceChannels := st.capturedChannels
let st1 : LoopbackState := { st with audioBuffer := [] }
if samples = [] then (st1, false, none)
else
  let monoSamples := downmix sourceChannels samples
  let resampledSamples := resample sourceSampleRate targetSampleRate monoSamples
  if openOk = false then (st1, false, none)
  else (st1, true, some (wavBytes targetSampleRate resampledSamples))

/-! ## Helper lemmas -/

/-- The sequential clamp of the capture thread agrees with the
`max`/`min` form of the spec's clamp. -/
theorem clampSample_eq (x : ℚ) : clampSample x = max (-1) (min 1 x) := by
  unfold clampSample
  split_ifs <;> simp_all [max_def, min_def] <;> split_ifs <;> linarith

/-- `getD` of a mapped range evaluates the function at the index. -/
theorem range_map_getD (n : ℕ) (f : ℕ → ℤ) (i : ℕ) (hi : i < n) :
    ((List.range n).map f).getD i 0 = f i := by
  rw [List.getD_eq_getElem _ _ (by simpa using hi)]
  simp

/-- Floor of a quotient of naturals in `ℚ` is natural division. -/
theorem floor_natCast_div_toNat (a b : ℕ) : (⌊(a : ℚ) / (b : ℚ)⌋).toNat = a / b := by
  rw [Rat.floor_natCast_div_natCast, ← Int.natCast_div, Int.toNat_natCast]

/-- The serialized samples occupy two bytes each. -/
theorem flatten_i16le_length (samples : List ℤ) :
    ((samples.map i16le).flatten).length = 2 * samples.length := by
  induction samples with
  | nil => simp
  | cons a l ih => simp [i16le, u16le, ih]; ring

/-- Length-sum form of `flatten_i16le_length`, as `simp` normalizes it. -/
theorem sum_map_length_i16le (samples : List ℤ) :
    (List.map (List.length ∘ i16le) samples).sum = 2 * samples.length := by
  induction samples with
  | nil => simp
  | cons a l ih => simp [i16le, u16le, Function.comp, ih]; ring

/-- The inner drain cycle never writes `m_lastError`. -/
theorem drainLoop_lastError (fmt : WaveFormat) (ch : ℕ) (gbs : List BufResult)
    (st : CapState) (pl : ℕ) (npss : List PollResult) (rbs : List Bool) :
    (drainLoop fmt ch gbs st pl npss rbs).1.lastError = st.lastError := by
  induction gbs generalizing st pl npss rbs with
  | nil => cases pl <;> simp [drainLoop]
  | cons g grest ih =>
    cases pl with
    | zero => simp [drainLoop]
    | succ pl =>
      cases g with
      | fail => simp [drainLoop]
      | ok p =>
        cases rbs with
        | nil => simp [drainLoop]
        | cons b rrest =>
          cases b with
          | false => simp [drainLoop]
          | true =>
            cases npss with
            | nil => simp [drainLoop]
            | cons np nrest =>
              cases np with
              | fail => simp [drainLoop]
              | ok pl1 => simpa [drainLoop] using ih _ _ _ _

/-- The capture thread never writes `m_lastError`: no streaming failure is
recorded for `GetLastError` to report. -/
theorem captureLoop_lastError (fmt : WaveFormat) (ch : ℕ) (fuel : ℕ) (st : CapState)
    (npss : List PollResult) (gbs : List BufResult) (rbs : List Bool) :
    (captureLoop fmt ch fuel st npss gbs rbs).lastError = st.lastError := by
  induction fuel generalizing st npss gbs rbs with
  | zero => simp [captureLoop]
  | succ fuel ih =>
    cases npss with
    | nil => simp [captureLoop]
    | cons np nrest =>
      cases np with
      | fail => simp [captureLoop]
      | ok pl =>
        rw [captureLoop, ih]
        exact drainLoop_lastError fmt ch gbs st pl nrest rbs

/-! ## Claims -/

/-- C1: the claim's success half holds — after a successful export the live
buffer is empty — but its failure half does not: `SaveToWav` clears
`m_audioBuffer` while taking the snapshot, before the destination file is
even opened, so after a `WriteFailure` the buffer is empty as well, not
preserved.  First conjunct: the buffer is empty after every `SaveToWav`
call, whatever the outcome.  Second conjunct: the concrete failing run —
buffer `[1, 2, 3]`, unopenable destination — returns failure with the
buffer cleared, contradicting the claim (and the source's own
"Clear buffer after saving" comment). -/
theorem claimC1_buffer_cleared_even_on_write_failure :
    (∀ (st : LoopbackState) (r : ℕ) (ok : Bool), (saveToWav st r ok).1.audioBuffer = []) ∧
    saveToWav ⟨[1, 2, 3], 16000, 1⟩ 16000 false = (⟨[], 16000, 1⟩, false, none) := by
  refine ⟨fun st r ok => ?_, rfl⟩
  rw [saveToWav]
  split
  · rfl
  · split <;> rfl

/-- C2 counterexample: the claim's example "an input of -2.0 yields -32768"
is false — the code clamps -2.0 to -1.0 and truncates -1.0 × 32767.0,
yielding -32767. -/
theorem claimC2_counterexample :
    normalizeSample (-2) = -32767 ∧ ((-32767 : ℤ) ≠ -32768) := by
  constructor
  · norm_num [normalizeSample, clampSample, ratTrunc]
  · decide

/-- C2 (amended): for every float input `x`, the Sample Normalizer outputs
the int16 value obtained by clamping `x` to [-1.0, 1.0] and truncating
`x × 32767.0` toward zero; an input of 1.5 yields 32767 and an input of
-2.0 yields -32767 (not -32768: the negative peak of the scale is -32767). -/
theorem claimC2_amended :
    (∀ x : ℚ, normalizeSample x = clamp_and_scale x) ∧
    normalizeSample (3 / 2) = 32767 ∧ normalizeSample (-2) = -32767 := by
  refine ⟨fun x => ?_, ?_, ?_⟩
  · rw [normalizeSample, clamp_and_scale, clampSample_eq]
  · norm_num [normalizeSample, clampSample, ratTrunc]
  · norm_num [normalizeSample, clampSample, ratTrunc]

/-- C3 counterexample: with capture running and samples `[5, 6]`
accumulated, a second start request does return failure, but it does not
leave the first run's accumulated samples unaffected — the wrapper clears
`m_audioBuffer` before `AudioCapture::Start` rejects the request. -/
theorem claimC3_counterexample :
    (wasapiStart ⟨[5, 6], 48000, 2⟩ ⟨true, true, ""⟩ true).2.2 = false ∧
    (wasapiStart ⟨[5, 6], 48000, 2⟩ ⟨true, true, ""⟩ true).1.audioBuffer ≠ [5, 6] := by
  constructor <;> decide

/-- C3 (amended): when capture is already running, a second start request
returns failure (`AlreadyRunning`) and leaves the capture run's state
unchanged apart from the last-error message — but the live Accumulation
Buffer is cleared by the call, so the samples accumulated so far are
discarded. -/
theorem claimC3_amended (st : LoopbackState) (ac : AudioCaptureState) (ok : Bool)
    (h : ac.isCapturing = true) :
    wasapiStart st ac ok =
      ({ st with audioBuffer := [] }, { ac with lastError := "Already capturing" }, false) := by
  simp [wasapiStart, audioCaptureStart, h]

/-- C3 witness: the amended statement at a concrete running state. -/
theorem claimC3_witness :
    (⟨true, true, ""⟩ : AudioCaptureState).isCapturing = true ∧
    wasapiStart ⟨[5, 6], 48000, 2⟩ ⟨true, true, ""⟩ true =
      (⟨[], 48000, 2⟩, ⟨true, true, "Already capturing"⟩, false) :=
  ⟨rfl, claimC3_amended _ _ _ rfl⟩

/-- C4: for source rate `s` ≠ target rate `t` (both positive), resampling
produces exactly `⌊inputLength / ratio⌋ = inputLength·t/s` output samples,
and output sample `i` is the linear blend
`input[idx]·(1 − frac) + input[idx+1]·frac` truncated toward zero, where
`idx = ⌊i·ratio⌋ = i·s/t` and `frac = i·ratio − idx = (i·s mod t)/t`,
except that `input[idx]` passes through unchanged when `idx+1` is out of
bounds. -/
theorem claimC4 (s t : ℕ) (mono : List ℤ) (i : ℕ)
    (hs : 0 < s) (ht : 0 < t) (hne : s ≠ t) (hi : i < mono.length * t / s) :
    (resample s t mono).length = mono.length * t / s ∧
    (resample s t mono).getD i 0 =
      (if i * s / t + 1 < mono.length then
        ratTrunc ((mono.getD (i * s / t) 0 : ℚ) * (1 - ((i * s % t : ℕ) : ℚ) / (t : ℚ))
          + (mono.getD (i * s / t + 1) 0 : ℚ) * (((i * s % t : ℕ) : ℚ) / (t : ℚ)))
      else mono.getD (i * s / t) 0) := by
  have hsQ : (s : ℚ) ≠ 0 := Nat.cast_ne_zero.mpr hs.ne'
  have htQ : (t : ℚ) ≠ 0 := Nat.cast_ne_zero.mpr ht.ne'
  have hratio : (mono.length : ℚ) / ((s : ℚ) / (t : ℚ))
      = ((mono.length * t : ℕ) : ℚ) / (s : ℚ) := by
    push_cast
    field_simp
  have hsize : (⌊(mono.length : ℚ) / ((s : ℚ) / (t : ℚ))⌋).toNat = mono.length * t / s := by
    rw [hratio, floor_natCast_div_toNat]
  have hidx : (⌊(i : ℚ) * ((s : ℚ) / (t : ℚ))⌋).toNat = i * s / t := by
    have h : (i : ℚ) * ((s : ℚ) / (t : ℚ)) = ((i * s : ℕ) : ℚ) / (t : ℚ) := by
      push_cast; ring
    rw [h, floor_natCast_div_toNat]
  have hfrac : (i : ℚ) * ((s : ℚ) / (t : ℚ)) - ((i * s / t : ℕ) : ℚ) =
      ((i * s % t : ℕ) : ℚ) / (t : ℚ) := by
    have key : (t : ℚ) * ((i * s / t : ℕ) : ℚ) + ((i * s % t : ℕ) : ℚ)
        = (i : ℚ) * (s : ℚ) := by
      exact_mod_cast congrArg (Nat.cast : ℕ → ℚ) (Nat.div_add_mod (i * s) t)
    field_simp
    linarith [key]
  constructor
  · rw [resample, if_pos hne]
    simp [hsize]
  · rw [resample, if_pos hne]
    have hi' : i < (⌊(mono.length : ℚ) / ((s : ℚ) / (t : ℚ))⌋).toNat := by
      rw [hsize]; exact hi
    rw [range_map_getD _ _ _ hi']
    simp only []
    rw [hidx, hfrac]

/-- C4 witness: the spec's own determinism instance, source 48000 Hz to
target 16000 Hz, on the input `[0, 300, -600, 900]`. -/
theorem claimC4_witness :
    0 < 48000 ∧ 0 < 16000 ∧ 48000 ≠ 16000 ∧
      0 < ([0, 300, -600, 900] : List ℤ).length * 16000 / 48000 ∧
    ((resample 48000 16000 [0, 300, -600, 900]).length
        = ([0, 300, -600, 900] : List ℤ).length * 16000 / 48000 ∧
      (resample 48000 16000 [0, 300, -600, 900]).getD 0 0 =
        (if 0 * 48000 / 16000 + 1 < ([0, 300, -600, 900] : List ℤ).length then
          ratTrunc ((([0, 300, -600, 900] : List ℤ).getD (0 * 48000 / 16000) 0 : ℚ)
              * (1 - ((0 * 48000 % 16000 : ℕ) : ℚ) / (16000 : ℚ))
            + (([0, 300, -600, 900] : List ℤ).getD (0 * 48000 / 16000 + 1) 0 : ℚ)
              * (((0 * 48000 % 16000 : ℕ) : ℚ) / (16000 : ℚ)))
        else ([0, 300, -600, 900] : List ℤ).getD (0 * 48000 / 16000) 0)) :=
  ⟨by decide, by decide, by decide, by decide,
    claimC4 48000 16000 [0, 300, -600, 900] 0 (by decide) (by decide) (by decide) (by decide)⟩

/-- C5: for a stereo snapshot the downmix emits one mono sample per frame,
`(left + right) / 2` truncated toward zero (C `int32_t` division of int16
values cannot overflow), with `(100, -50) ↦ 25` and
`(32767, 32767) ↦ 32767`; any other channel count passes through
unchanged. -/
theorem claimC5 (c : ℕ) (samples : List ℤ) (i : ℕ) (hi : i < samples.length / 2) :
    (downmix 2 samples).length = samples.length / 2 ∧
    (downmix 2 samples).getD i 0 =
      Int.tdiv (samples.getD (2 * i) 0 + samples.getD (2 * i + 1) 0) 2 ∧
    (c ≠ 2 → downmix c samples = samples) ∧
    downmix 2 [100, -50] = [25] ∧ downmix 2 [32767, 32767] = [32767] := by
  refine ⟨by simp [downmix], ?_, fun hc => by simp [downmix, hc], by decide, by decide⟩
  rw [downmix, if_pos rfl, range_map_getD _ _ _ hi]

/-- C5 witness: the downmix statement at the concrete stereo buffer
`[100, -50]` (and pass-through at channel count 3). -/
theorem claimC5_witness :
    0 < ([100, -50] : List ℤ).length / 2 ∧
    ((downmix 2 [100, -50]).length = ([100, -50] : List ℤ).length / 2 ∧
      (downmix 2 [100, -50]).getD 0 0 =
        Int.tdiv (([100, -50] : List ℤ).getD (2 * 0) 0
          + ([100, -50] : List ℤ).getD (2 * 0 + 1) 0) 2 ∧
      (3 ≠ 2 → downmix 3 [100, -50] = [100, -50]) ∧
      downmix 2 [100, -50] = [25] ∧ downmix 2 [32767, 32767] = [32767]) :=
  ⟨by decide, claimC5 3 [100, -50] 0 (by decide)⟩

/-- C6: a successful export of `n` samples at target rate `r` (fields in
32-bit range) writes a 44-byte header — `RIFF` tag, `fileSize = 36 + 2n`,
`WAVE`, `fmt ` sub-chunk of size 16 with audioFormat 1, numChannels 1,
sampleRate `r`, byteRate `2r`, blockAlign 2, bitsPerSample 16, and a
`data` sub-chunk of size `2n` — followed by the raw little-endian 16-bit
samples. -/
theorem claimC6 (samples : List ℤ) (r : ℕ)
    (hn : 36 + 2 * samples.length < 2 ^ 32) (hr : r * 2 < 2 ^ 32) :
    wavHeaderSpec (wavBytes r samples) samples.length r ∧
    (wavBytes r samples).drop 44 = (samples.map i16le).flatten := by
  have h1 : samples.length * 2 % 2 ^ 32 = samples.length * 2 := Nat.mod_eq_of_lt (by omega)
  have h2 : (36 + samples.length * 2) % 2 ^ 32 = 36 + samples.length * 2 :=
    Nat.mod_eq_of_lt (by omega)
  have h3 : r % 2 ^ 32 = r := Nat.mod_eq_of_lt (by omega)
  have h4 : r % 2 ^ 32 * 1 * 2 % 2 ^ 32 = r * 2 := by omega
  refine ⟨⟨?_, ?_, ?_, ?_, ?_, ?_, ?_, ?_, ?_, ?_, ?_, ?_, ?_, ?_⟩, ?_⟩ <;>
    simp only [wavHeaderSpec, wavBytes, u16le, u32le, decodeLEn, h1, h2, h3, h4] <;>
    simp [flatten_i16le_length, sum_map_length_i16le] <;> omega

/-- C6 witness: the header statement for a concrete 3-sample export at
16000 Hz. -/
theorem claimC6_witness :
    36 + 2 * ([1, -1, 300] : List ℤ).length < 2 ^ 32 ∧ 16000 * 2 < 2 ^ 32 ∧
    (wavHeaderSpec (wavBytes 16000 [1, -1, 300]) ([1, -1, 300] : List ℤ).length 16000 ∧
      (wavBytes 16000 [1, -1, 300]).drop 44 = (([1, -1, 300] : List ℤ).map i16le).flatten) :=
  ⟨by decide, by decide, claimC6 [1, -1, 300] 16000 (by decide) (by decide)⟩

/-- C7: a silence-flagged packet contributes nothing to the Accumulation
Buffer, whatever its raw bytes hold — the capture loop's append is guarded
by `!(flags & AUDCLNT_BUFFERFLAGS_SILENT)`. -/
theorem claimC7 (fmt : WaveFormat) (channels : ℕ) (buffer : List ℤ) (p : Packet)
    (h : p.silent = true) : processPacket fmt channels buffer p = buffer := by
  simp [processPacket, h]

/-- C7 witness: a silent packet with non-zero raw bytes leaves a concrete
buffer untouched. -/
theorem claimC7_witness :
    (⟨1, [7, 7, 7, 7], true⟩ : Packet).silent = true ∧
    processPacket ⟨3, 16, 0⟩ 1 [5] ⟨1, [7, 7, 7, 7], true⟩ = [5] :=
  ⟨rfl, claimC7 _ _ _ _ rfl⟩

/-- C8 counterexample: a `GetBuffer` (getPacket) failure does not terminate
the capture loop, and no fault is surfaced through the last-error accessor.
In this run the first `GetBuffer` response is a failure, yet the loop
afterwards polls again, retrieves a later packet (PCM16 bytes `[1, 0]`),
and appends its sample to the buffer — and `m_lastError` stays empty. -/
theorem claimC8_counterexample :
    (captureLoop ⟨1, 16, 0⟩ 1 2 ⟨[], ""⟩ [PollResult.ok 1, PollResult.ok 1]
      [BufResult.fail, BufResult.ok ⟨1, [1, 0], false⟩] [true]).buffer = [1] ∧
    (captureLoop ⟨1, 16, 0⟩ 1 2 ⟨[], ""⟩ [PollResult.ok 1, PollResult.ok 1]
      [BufResult.fail, BufResult.ok ⟨1, [1, 0], false⟩] [true]).lastError = "" := by
  constructor <;> rfl

/-- C8 (amended): only a failure of the outer next-packet-size poll
terminates the capture loop (first conjunct: the thread exits at once with
its state unchanged).  Each in-drain collaborator failure aborts only the
current drain cycle: a `GetBuffer` (getPacket) failure with the state
unchanged (second conjunct), a `ReleaseBuffer` (releasePacket) failure
after the already-retrieved packet was processed (third conjunct), and an
in-drain `GetNextPacketSize` failure likewise (fourth conjunct).  After
any drain cycle the outer loop does not terminate but continues — sleeps
and polls again — with the drain's resulting state and the unconsumed
scripts (fifth conjunct).  And no failure is surfaced via the last-error
accessor: the capture loop leaves `m_lastError` unchanged in every run
(sixth conjunct). -/
theorem claimC8_amended :
    (∀ (fmt : WaveFormat) (ch fuel : ℕ) (st : CapState) (npss : List PollResult)
      (gbs : List BufResult) (rbs : List Bool),
      captureLoop fmt ch (fuel + 1) st (PollResult.fail :: npss) gbs rbs = st) ∧
    (∀ (fmt : WaveFormat) (ch : ℕ) (grest : List BufResult) (st : CapState) (pl : ℕ)
      (npss : List PollResult) (rbs : List Bool),
      drainLoop fmt ch (BufResult.fail :: grest) st (pl + 1) npss rbs
        = (st, npss, grest, rbs)) ∧
    (∀ (fmt : WaveFormat) (ch : ℕ) (p : Packet) (grest : List BufResult) (st : CapState)
      (pl : ℕ) (npss : List PollResult) (rrest : List Bool),
      drainLoop fmt ch (BufResult.ok p :: grest) st (pl + 1) npss (false :: rrest)
        = ({ st with buffer := processPacket fmt ch st.buffer p }, npss, grest, rrest)) ∧
    (∀ (fmt : WaveFormat) (ch : ℕ) (p : Packet) (grest : List BufResult) (st : CapState)
      (pl : ℕ) (nrest : List PollResult) (rrest : List Bool),
      drainLoop fmt ch (BufResult.ok p :: grest) st (pl + 1)
          (PollResult.fail :: nrest) (true :: rrest)
        = ({ st with buffer := processPacket fmt ch st.buffer p }, nrest, grest, rrest)) ∧
    (∀ (fmt : WaveFormat) (ch fuel : ℕ) (st : CapState) (pl : ℕ)
      (nrest : List PollResult) (gbs : List BufResult) (rbs : List Bool),
      captureLoop fmt ch (fuel + 1) st (PollResult.ok pl :: nrest) gbs rbs =
        captureLoop fmt ch fuel (drainLoop fmt ch gbs st pl nrest rbs).1
          (drainLoop fmt ch gbs st pl nrest rbs).2.1
          (drainLoop fmt ch gbs st pl nrest rbs).2.2.1
          (drainLoop fmt ch gbs st pl nrest rbs).2.2.2) ∧
    (∀ (fmt : WaveFormat) (ch fuel : ℕ) (st : CapState) (npss : List PollResult)
      (gbs : List BufResult) (rbs : List Bool),
      (captureLoop fmt ch fuel st npss gbs rbs).lastError = st.lastError) :=
  ⟨fun _ _ _ _ _ _ _ => rfl, fun _ _ _ _ _ _ _ => rfl,
   fun _ _ _ _ _ _ _ _ => rfl, fun _ _ _ _ _ _ _ _ => rfl,
   fun _ _ _ _ _ _ _ _ => rfl,
   fun fmt ch fuel st npss gbs rbs => captureLoop_lastError fmt ch fuel st npss gbs rbs⟩

/-- C9: when the snapshot's rate already equals the target rate, the
resampling stage is the exact identity. -/
theorem claimC9 (rate : ℕ) (mono : List ℤ) : resample rate rate mono = mono := by
  simp [resample]

/-- C10: an extensible-tagged stream is normalized through the
float clamp-and-scale path whatever `bitsPerSample` and sub-format the
descriptor carries (first conjunct), and in particular an
extensible-tagged stream whose sub-format is 16-bit signed PCM is never
copied verbatim: on the bytes `[0, 0, 128, 63]` (the float 1.0) the float
path yields `[32767]` (second conjunct), which differs from the verbatim
int16 reading of the same bytes (third conjunct). -/
theorem claimC10 :
    (∀ (bps sub channels numFrames : ℕ) (raw : List ℕ),
      convertSamples ⟨WAVE_FORMAT_EXTENSIBLE, bps, sub⟩ channels numFrames raw =
        ((decodeF32LE raw).take (numFrames * channels)).map normalizeSample) ∧
    convertSamples ⟨WAVE_FORMAT_EXTENSIBLE, 16, 1⟩ 1 1 [0, 0, 128, 63] = [32767] ∧
    convertSamples ⟨WAVE_FORMAT_EXTENSIBLE, 16, 1⟩ 1 1 [0, 0, 128, 63] ≠
      (decodeI16LE [0, 0, 128, 63]).take (1 * 1) := by
  have hconv : ∀ (bps sub channels numFrames : ℕ) (raw : List ℕ),
      convertSamples ⟨WAVE_FORMAT_EXTENSIBLE, bps, sub⟩ channels numFrames raw =
        ((decodeF32LE raw).take (numFrames * channels)).map normalizeSample := by
    intro bps sub channels numFrames raw
    simp [convertSamples, WAVE_FORMAT_EXTENSIBLE, WAVE_FORMAT_IEEE_FLOAT]
  have hval : convertSamples ⟨WAVE_FORMAT_EXTENSIBLE, 16, 1⟩ 1 1 [0, 0, 128, 63]
      = [32767] := by
    rw [hconv]
    have h1 : decodeF32 0 0 128 63 = 1 := by
      norm_num [decodeF32]
    simp [decodeF32LE, h1]
    norm_num [normalizeSample, clampSample, ratTrunc]
  refine ⟨hconv, hval, ?_⟩
  rw [hval]
  decide

end GW
